import Mathlib

/-!
Verification development for the image batch-conversion server
(`server.js`, disk-storage variant): the `/compress` batch pipeline,
the `/download/:filename` single-item retrieval and the
`/download-all-zip` archive retrieval, over a shallow embedding.

Payload bytes are modelled as `List Nat`; the external codec (sharp's
`toFile`) is an opaque-as-parameter function that either succeeds with
output bytes or fails with an error message, matching the per-item
`try`/`catch` in the handler.
-/

/-- Bytes of one image payload, abstractly. -/
abbrev Payload := List Nat

/-- One uploaded file as the handler sees it: `file.originalname`,
`file.size` (original size from multer) and the staged content that the
codec reads (`file.path` contents). -/
structure ConvFile where
  originalname : String
  size : Nat
  content : Payload
deriving Repr, DecidableEq

/-- The per-item report object returned by the `/compress` handler
(server.js lines 168-179). -/
structure FileResult where
  name : String
  outputFilename : String
  originalSize : Nat
  compressedSize : Nat
  status : String
  errorMessage : Option String
deriving Repr, DecidableEq

/-- The `processedImages` object: an insertion-ordered mapping from
output filename to stored payload (in the source the value is a temp
file path; we identify it with the bytes it holds). -/
abbrev Store := List (String × Payload)

/-- The external codec capability: input bytes, sharp format tag,
quality; succeeds with output bytes or fails with a message. -/
abbrev Codec := Payload → String → Int → Except String Payload

/-- Property-style lookup `processedImages[k]` on a JS object. -/
def storeLookup (s : Store) (k : String) : Option Payload :=
  match s with
  | [] => none
  | (k', v) :: t => if k' = k then some v else storeLookup t k

/-- Assignment `processedImages[k] = v` on a JS object: replaces the
value in place when the key exists (key order kept), appends otherwise. -/
def storeInsert (s : Store) (k : String) (v : Payload) : Store :=
  match s with
  | [] => [(k, v)]
  | (k', v') :: t => if k' = k then (k, v) :: t else (k', v') :: storeInsert t k v

/-- The statement `delete processedImages[k]`. -/
def storeErase (s : Store) (k : String) : Store :=
  match s with
  | [] => []
  | (k', v') :: t => if k' = k then t else (k', v') :: storeErase t k

/-- The clearing loop at server.js lines 83-85:
`for (const key in processedImages) delete processedImages[key]`. -/
def storeClear : Store → Store
  | [] => []
  | _ :: t => storeClear t

/-- Node's `path.parse(name)`: splits a filename (no directory part)
at its last dot, provided that dot is not the leading character. -/
def splitLastDot (cs : List Char) : Option (List Char × List Char) :=
  match cs with
  | [] => none
  | c :: t =>
    match splitLastDot t with
    | some (pre, post) => some (c :: pre, post)
    | none => if c = '.' then some ([], t) else none

/-- The stem `path.parse(originalname).name` (server.js line 103):
the name with the extension after the last dot removed; a filename
whose only dot leads (".bashrc") keeps it all. -/
def stem (s : String) : String :=
  match splitLastDot s.data with
  | none => s
  | some (pre, _) => if pre = [] then s else String.mk pre

/-- JS template-literal rendering of `req.query.format`, which is
`undefined` when the query parameter is absent. -/
def formatStr : Option String → String
  | none => "undefined"
  | some f => f

/-- Numeric value of a decimal digit string. -/
def digitsVal (cs : List Char) : Nat :=
  cs.foldl (fun a c => a * 10 + (c.toNat - '0'.toNat)) 0

/-- JS `parseInt(s, 10)`: skip whitespace, optional sign, longest
decimal-digit run; `none` models NaN (no digits, or absent parameter). -/
def jsParseInt (s : Option String) : Option Int :=
  match s with
  | none => none
  | some str =>
    let cs := str.data.dropWhile (fun c => c = ' ' ∨ c = '\t' ∨ c = '\n' ∨ c = '\r')
    match cs with
    | '-' :: rest =>
      let ds := rest.takeWhile Char.isDigit
      if ds = [] then none else some (-(digitsVal ds : Int))
    | '+' :: rest =>
      let ds := rest.takeWhile Char.isDigit
      if ds = [] then none else some (digitsVal ds : Int)
    | _ =>
      let ds := cs.takeWhile Char.isDigit
      if ds = [] then none else some (digitsVal ds : Int)

/-- server.js line 95: `parseInt(req.query.quality, 10) || 75` — the
`||` takes 75 exactly when `parseInt` yields a falsy value (NaN or 0). -/
def effectiveQuality (q : Option String) : Int :=
  match jsParseInt q with
  | none => 75
  | some v => if v = 0 then 75 else v

/-- JS `String.prototype.toLowerCase()` on the ASCII format tags the
handler deals in: lower-case each character. -/
def jsToLower (s : String) : String := String.mk (s.data.map Char.toLower)

/-- The format whitelist at server.js line 119. -/
def supportedFormats : List String := ["jpeg", "png", "webp", "avif", "jxl"]

/-- One file's processing (the body of the `req.files.map` callback,
server.js lines 100-179): returns the per-item report and the optional
Result Store write `(outputFilename, payload)` performed at line 142.
When the format parameter is absent, `format.toLowerCase()` at line 120
throws a TypeError which the per-item `catch` captures, while the
output filename computed at line 106 has already rendered `undefined`. -/
def processFile (codec : Codec) (format : Option String) (quality : Int)
    (file : ConvFile) : FileResult × Option (String × Payload) :=
  let name := stem file.originalname
  let outputFilename := name ++ "." ++ formatStr format
  match format with
  | none =>
    ({ name := file.originalname, outputFilename := outputFilename,
       originalSize := file.size, compressedSize := 0, status := "Error",
       errorMessage := some "Cannot read properties of undefined (reading 'toLowerCase')" },
     none)
  | some f =>
    let sharpFormat := jsToLower f
    if supportedFormats.contains sharpFormat then
      match codec file.content sharpFormat quality with
      | Except.ok payload =>
        ({ name := file.originalname, outputFilename := outputFilename,
           originalSize := file.size, compressedSize := payload.length,
           status := "Complete", errorMessage := none },
         some (outputFilename, payload))
      | Except.error msg =>
        ({ name := file.originalname, outputFilename := outputFilename,
           originalSize := file.size, compressedSize := 0, status := "Error",
           errorMessage := some msg },
         none)
    else
      ({ name := file.originalname, outputFilename := outputFilename,
         originalSize := file.size, compressedSize := 0,
         status := "Unsupported Format",
         errorMessage := some ("Unsupported format: " ++ f) },
     none)

/-- Apply the per-item Result Store writes in order. -/
def applyWrites (s : Store) : List (Option (String × Payload)) → Store
  | [] => s
  | none :: t => applyWrites s t
  | some (k, v) :: t => applyWrites (storeInsert s k v) t

/-- The `/compress` handler (server.js lines 77-193): clears
`processedImages` (lines 83-85), then rejects an empty upload list with
400 "No files uploaded." (lines 88-91), otherwise reads format and
quality, processes every file, stores each successful payload under its
output filename, and answers with the full per-item report list.
Returns the HTTP outcome together with the store left behind. -/
def runBatch (codec : Codec) (format : Option String) (qualityRaw : Option String)
    (files : List ConvFile) (store : Store) :
    Except String (List FileResult) × Store :=
  let cleared := storeClear store
  if files.isEmpty then
    (Except.error "No files uploaded.", cleared)
  else
    let quality := effectiveQuality qualityRaw
    let outs := files.map (processFile codec format quality)
    (Except.ok (outs.map Prod.fst), applyWrites cleared (outs.map Prod.snd))

/-- The `/download/:filename` handler (server.js lines 196-254): look
the name up in `processedImages`; when present, serve the payload and
remove the entry (unlink + `delete` on stream end); otherwise 404. -/
def takeOne (store : Store) (filename : String) : Option Payload × Store :=
  match storeLookup store filename with
  | some payload => (some payload, storeErase store filename)
  | none => (none, store)

/-- The `/download-all-zip` handler (server.js lines 257-306): archive
entries are `Object.keys(processedImages)` in order, each paired with
its stored payload; an empty store finalizes an empty archive; nothing
is removed from the store. -/
def downloadAllZip (store : Store) : List (String × Payload) × Store :=
  let filenames := store.map Prod.fst
  if filenames.isEmpty then
    ([], store)
  else
    (filenames.filterMap (fun k => (storeLookup store k).map (fun v => (k, v))), store)

/-- A concrete codec for witnesses: identity on the bytes. -/
def okCodec : Codec := fun bytes _ _ => Except.ok bytes

/-- A codec whose output length records the quality it was invoked
with, used to observe the quality value the core hands the codec. -/
def spyCodec : Codec := fun _ _ q => Except.ok (List.replicate q.natAbs 7)

/-! ### Store lemmas -/

theorem storeClear_eq_nil (s : Store) : storeClear s = [] := by
  induction s with
  | nil => rfl
  | cons h t ih => simpa [storeClear] using ih

theorem storeLookup_insert_self (s : Store) (k : String) (v : Payload) :
    storeLookup (storeInsert s k v) k = some v := by
  induction s with
  | nil => simp [storeInsert, storeLookup]
  | cons h t ih =>
    obtain ⟨k', v'⟩ := h
    by_cases hk : k' = k
    · simp [storeInsert, hk, storeLookup]
    · simp [storeInsert, hk, storeLookup, ih]

theorem storeLookup_insert_ne (s : Store) (k k' : String) (v : Payload)
    (hne : k ≠ k') : storeLookup (storeInsert s k v) k' = storeLookup s k' := by
  induction s with
  | nil => simp [storeInsert, storeLookup, hne]
  | cons h t ih =>
    obtain ⟨k'', v''⟩ := h
    by_cases hk : k'' = k
    · simp [storeInsert, hk, storeLookup, hne]
    · simp [storeInsert, hk, storeLookup, ih]

theorem storeLookup_eq_none_of_not_mem (s : Store) (k : String)
    (h : k ∉ s.map Prod.fst) : storeLookup s k = none := by
  induction s with
  | nil => rfl
  | cons hd t ih =>
    obtain ⟨k', v'⟩ := hd
    simp only [List.map_cons, List.mem_cons] at h
    push_neg at h
    have hk : ¬ k' = k := fun hh => h.1 hh.symm
    simp [storeLookup, hk, ih h.2]

theorem storeInsert_keys (s : Store) (k : String) (v : Payload) :
    (storeInsert s k v).map Prod.fst
      = if k ∈ s.map Prod.fst then s.map Prod.fst else s.map Prod.fst ++ [k] := by
  induction s with
  | nil => simp [storeInsert]
  | cons hd t ih =>
    obtain ⟨k', v'⟩ := hd
    by_cases hk : k' = k
    · simp [storeInsert, hk]
    · have hk' : ¬ k = k' := fun hh => hk hh.symm
      by_cases hm : k ∈ t.map Prod.fst
      · simp [storeInsert, hk, ih, hk', hm]
      · simp [storeInsert, hk, ih, hk', hm]

theorem storeInsert_keys_nodup (s : Store) (k : String) (v : Payload)
    (h : (s.map Prod.fst).Nodup) : ((storeInsert s k v).map Prod.fst).Nodup := by
  rw [storeInsert_keys]
  split
  · exact h
  · next hnm =>
      rw [List.nodup_append]
      refine ⟨h, List.nodup_singleton k, ?_⟩
      intro a ha hb
      simp only [List.mem_singleton] at hb
      exact hnm (hb ▸ ha)

theorem storeLookup_erase_self (s : Store) (k : String)
    (h : (s.map Prod.fst).Nodup) : storeLookup (storeErase s k) k = none := by
  induction s with
  | nil => rfl
  | cons hd t ih =>
    obtain ⟨k', v'⟩ := hd
    simp only [List.map_cons, List.nodup_cons] at h
    by_cases hk : k' = k
    · subst hk
      simpa [storeErase] using storeLookup_eq_none_of_not_mem t k' h.1
    · simp [storeErase, hk, storeLookup, ih h.2]

theorem applyWrites_keys_nodup (ws : List (Option (String × Payload))) (s : Store)
    (h : (s.map Prod.fst).Nodup) : ((applyWrites s ws).map Prod.fst).Nodup := by
  induction ws generalizing s with
  | nil => exact h
  | cons w t ih =>
    match w with
    | none => exact ih s h
    | some (k, v) => exact ih _ (storeInsert_keys_nodup s k v h)

theorem applyWrites_lookup_not_written (ws : List (Option (String × Payload)))
    (s : Store) (k : String) (h : ∀ p, some (k, p) ∉ ws) :
    storeLookup (applyWrites s ws) k = storeLookup s k := by
  induction ws generalizing s with
  | nil => rfl
  | cons w t ih =>
    match w with
    | none =>
      have ht : ∀ p, some (k, p) ∉ t := fun p hp => h p (List.mem_cons_of_mem _ hp)
      exact ih s ht
    | some (k', v) =>
      have ht : ∀ p, some (k, p) ∉ t := fun p hp => h p (List.mem_cons_of_mem _ hp)
      have hk : k' ≠ k := by
        intro hh
        exact h v (by simp [hh])
      rw [show applyWrites s (some (k', v) :: t) = applyWrites (storeInsert s k' v) t from rfl,
        ih _ ht, storeLookup_insert_ne s k' k v hk]

theorem applyWrites_lookup_written (ws : List (Option (String × Payload)))
    (s : Store) (k : String) (h : ∃ p, some (k, p) ∈ ws) :
    (storeLookup (applyWrites s ws) k).isSome = true := by
  induction ws generalizing s with
  | nil => simp at h
  | cons w t ih =>
    by_cases ht : ∃ p, some (k, p) ∈ t
    · match w with
      | none => exact ih s ht
      | some (k', v) => exact ih _ ht
    · obtain ⟨p, hp⟩ := h
      rcases List.mem_cons.mp hp with hh | hh
      · have hw : w = some (k, p) := hh.symm
        subst hw
        push_neg at ht
        rw [show applyWrites s (some (k, p) :: t) = applyWrites (storeInsert s k p) t from rfl,
          applyWrites_lookup_not_written t _ k ht, storeLookup_insert_self]
        rfl
      · exact absurd ⟨p, hh⟩ ht

/-! ### Per-item and batch lemmas -/

theorem processFile_outputFilename (c : Codec) (fmt : Option String) (q : Int)
    (fl : ConvFile) :
    ((processFile c fmt q fl).1).outputFilename
      = stem fl.originalname ++ "." ++ formatStr fmt := by
  match fmt with
  | none => rfl
  | some f =>
    by_cases hm : jsToLower f ∈ supportedFormats
    · cases hcodec : c fl.content (jsToLower f) q with
      | ok p => simp [processFile, hm, hcodec]
      | error m => simp [processFile, hm, hcodec]
    · simp [processFile, hm]

theorem processFile_write_key (c : Codec) (fmt : Option String) (q : Int)
    (fl : ConvFile) (k : String) (p : Payload)
    (h : (processFile c fmt q fl).2 = some (k, p)) :
    k = stem fl.originalname ++ "." ++ formatStr fmt := by
  match fmt with
  | none => simp [processFile] at h
  | some f =>
    by_cases hm : jsToLower f ∈ supportedFormats
    · cases hcodec : c fl.content (jsToLower f) q with
      | ok p' =>
        simp [processFile, hm, hcodec] at h
        exact h.1.symm
      | error m => simp [processFile, hm, hcodec] at h
    · simp [processFile, hm] at h

theorem processFile_complete (c : Codec) (fmt : Option String) (q : Int)
    (fl : ConvFile) (h : ((processFile c fmt q fl).1).status = "Complete") :
    ∃ p, (processFile c fmt q fl).2
      = some (((processFile c fmt q fl).1).outputFilename, p) := by
  match fmt with
  | none => simp [processFile] at h
  | some f =>
    by_cases hm : jsToLower f ∈ supportedFormats
    · cases hcodec : c fl.content (jsToLower f) q with
      | ok p' => exact ⟨p', by simp [processFile, hm, hcodec]⟩
      | error m => simp [processFile, hm, hcodec] at h
    · simp [processFile, hm] at h

theorem processFile_status_cases (c : Codec) (fmt : Option String) (q : Int)
    (fl : ConvFile) :
    (((processFile c fmt q fl).1).status = "Complete" ∨
     ((processFile c fmt q fl).1).status = "Unsupported Format" ∨
     ((processFile c fmt q fl).1).status = "Error") ∧
    (((processFile c fmt q fl).1).status ≠ "Complete" →
      ((processFile c fmt q fl).1).compressedSize = 0 ∧
      ((processFile c fmt q fl).1).errorMessage ≠ none) := by
  match fmt with
  | none => simp [processFile]
  | some f =>
    by_cases hm : jsToLower f ∈ supportedFormats
    · cases hcodec : c fl.content (jsToLower f) q with
      | ok p' => simp [processFile, hm, hcodec]
      | error m => simp [processFile, hm, hcodec]
    · simp [processFile, hm]

theorem processFile_unsupported (c : Codec) (f : String) (q : Int) (fl : ConvFile)
    (hm : jsToLower f ∉ supportedFormats) :
    processFile c (some f) q fl
      = ({ name := fl.originalname,
           outputFilename := stem fl.originalname ++ "." ++ f,
           originalSize := fl.size, compressedSize := 0,
           status := "Unsupported Format",
           errorMessage := some ("Unsupported format: " ++ f) }, none) := by
  simp [processFile, hm, formatStr]

theorem applyWrites_all_none (ws : List (Option (String × Payload))) (s : Store)
    (h : ∀ w ∈ ws, w = none) : applyWrites s ws = s := by
  induction ws generalizing s with
  | nil => rfl
  | cons w t ih =>
    have hw : w = none := h w (List.mem_cons_self w t)
    subst hw
    exact ih s fun w hw => h w (List.mem_cons_of_mem _ hw)

theorem runBatch_nonempty (c : Codec) (fmt qs : Option String)
    (files : List ConvFile) (store0 : Store) (hne : files ≠ []) :
    runBatch c fmt qs files store0
      = (Except.ok (files.map fun fl => (processFile c fmt (effectiveQuality qs) fl).1),
         applyWrites []
           (files.map fun fl => (processFile c fmt (effectiveQuality qs) fl).2)) := by
  have hie : files.isEmpty = false := by
    cases files with
    | nil => exact absurd rfl hne
    | cons a t => rfl
  simp [runBatch, hie, storeClear_eq_nil, List.map_map, Function.comp_def]

theorem runBatch_empty (c : Codec) (fmt qs : Option String) (store0 : Store) :
    runBatch c fmt qs [] store0 = (Except.error "No files uploaded.", []) := by
  simp [runBatch, storeClear_eq_nil]

theorem runBatch_keys_nodup (c : Codec) (fmt qs : Option String)
    (files : List ConvFile) (store0 : Store) :
    (((runBatch c fmt qs files store0).2).map Prod.fst).Nodup := by
  cases files with
  | nil => simp [runBatch_empty]
  | cons a t =>
    rw [runBatch_nonempty c fmt qs (a :: t) store0 (by simp)]
    exact applyWrites_keys_nodup _ [] (by simp)

theorem downloadAllZip_enumerates (s : Store) (hnd : (s.map Prod.fst).Nodup) :
    (s.map Prod.fst).filterMap (fun k => (storeLookup s k).map (fun v => (k, v))) = s := by
  induction s with
  | nil => rfl
  | cons hd t ih =>
    obtain ⟨k, v⟩ := hd
    simp only [List.map_cons, List.nodup_cons] at hnd
    have hhead : storeLookup ((k, v) :: t) k = some v := by simp [storeLookup]
    have htail : ∀ k' ∈ t.map Prod.fst,
        (fun k' => (storeLookup ((k, v) :: t) k').map (fun v' => (k', v')))  k'
          = (fun k' => (storeLookup t k').map (fun v' => (k', v'))) k' := by
      intro k' hk'
      have hne : ¬ k = k' := fun hh => hnd.1 (hh ▸ hk')
      simp [storeLookup, hne]
    rw [List.map_cons, List.filterMap_cons, List.filterMap_congr htail, ih hnd.2, hhead]
    simp

/-! ### Claims -/

/-- Claim C1: for every batch of N requests (any mix of valid,
unsupported and failing items), `runBatch` answers with exactly N
per-item reports whose order matches the input order index-for-index
(the list is the input list mapped through the per-item worker, not
completion order), and after it returns every item whose status is
"Complete" is present in the Result Store under its derived output
name. -/
theorem C1_batch_order_and_store (codec : Codec) (fmt qs : Option String)
    (files : List ConvFile) (store0 : Store) (hne : files ≠ []) :
    ∃ results store1,
      runBatch codec fmt qs files store0 = (Except.ok results, store1) ∧
      results.length = files.length ∧
      results = files.map (fun fl => (processFile codec fmt (effectiveQuality qs) fl).1) ∧
      ∀ r ∈ results, r.status = "Complete" →
        (storeLookup store1 r.outputFilename).isSome = true := by
  refine ⟨_, _, runBatch_nonempty codec fmt qs files store0 hne, by simp, rfl, ?_⟩
  intro r hr hst
  obtain ⟨fl, hfl, hflr⟩ := List.mem_map.mp hr
  subst hflr
  obtain ⟨p, hp⟩ := processFile_complete codec fmt (effectiveQuality qs) fl hst
  exact applyWrites_lookup_written _ [] _ ⟨p, List.mem_map.mpr ⟨fl, hfl, hp⟩⟩

/-- Witness for C1: a concrete two-item batch over the identity codec. -/
theorem C1_batch_order_and_store_witness :
    ∃ results store1,
      runBatch okCodec (some "webp") (some "80")
          [⟨"a.png", 2, [1, 2]⟩, ⟨"b.png", 3, [7]⟩] [("old.webp", [9])]
        = (Except.ok results, store1) ∧
      results.length = ([⟨"a.png", 2, [1, 2]⟩, ⟨"b.png", 3, [7]⟩] : List ConvFile).length ∧
      results = ([⟨"a.png", 2, [1, 2]⟩, ⟨"b.png", 3, [7]⟩] : List ConvFile).map
        (fun fl => (processFile okCodec (some "webp") (effectiveQuality (some "80")) fl).1) ∧
      ∀ r ∈ results, r.status = "Complete" →
        (storeLookup store1 r.outputFilename).isSome = true :=
  C1_batch_order_and_store okCodec (some "webp") (some "80")
    [⟨"a.png", 2, [1, 2]⟩, ⟨"b.png", 3, [7]⟩] [("old.webp", [9])] (by decide)

/-- Claim C2: `takeOne` is at-most-once on the store a batch leaves
behind — a first takeOne of a written name returns the stored payload
and removes the entry, a second takeOne of the same name (no batch in
between) returns NotFound, and takeOne of any name a store does not
hold returns NotFound and leaves the store as is. -/
theorem C2_takeOne_at_most_once (codec : Codec) (fmt qs : Option String)
    (files : List ConvFile) (store0 : Store) (n : String) (p : Payload)
    (hw : storeLookup (runBatch codec fmt qs files store0).2 n = some p) :
    takeOne (runBatch codec fmt qs files store0).2 n
      = (some p, storeErase (runBatch codec fmt qs files store0).2 n) ∧
    takeOne (storeErase (runBatch codec fmt qs files store0).2 n) n
      = (none, storeErase (runBatch codec fmt qs files store0).2 n) ∧
    ∀ (s : Store) (m : String), storeLookup s m = none → takeOne s m = (none, s) := by
  have hnd := runBatch_keys_nodup codec fmt qs files store0
  have he : storeLookup (storeErase (runBatch codec fmt qs files store0).2 n) n = none :=
    storeLookup_erase_self _ n hnd
  exact ⟨by simp [takeOne, hw], by simp [takeOne, he], fun s m hm => by simp [takeOne, hm]⟩

/-- Witness for C2: the name "a.webp" written by a one-item batch is
retrievable once, then NotFound. -/
theorem C2_takeOne_at_most_once_witness :
    takeOne (runBatch okCodec (some "webp") none [⟨"a.png", 1, [5]⟩] []).2 "a.webp"
      = (some [5], storeErase (runBatch okCodec (some "webp") none [⟨"a.png", 1, [5]⟩] []).2 "a.webp") ∧
    takeOne (storeErase (runBatch okCodec (some "webp") none [⟨"a.png", 1, [5]⟩] []).2 "a.webp") "a.webp"
      = (none, storeErase (runBatch okCodec (some "webp") none [⟨"a.png", 1, [5]⟩] []).2 "a.webp") ∧
    ∀ (s : Store) (m : String), storeLookup s m = none → takeOne s m = (none, s) :=
  C2_takeOne_at_most_once okCodec (some "webp") none [⟨"a.png", 1, [5]⟩] []
    "a.webp" [5] (by decide)

/-- Claim C3: a non-empty batch clears the Result Store of all prior
entries before dispatch — its outcome is the one obtained from an empty
store — and any name the new batch does not derive (in particular every
undownloaded entry of an earlier batch) is unretrievable afterwards:
`takeOne` answers NotFound. -/
theorem C3_new_batch_clears_store (codec : Codec) (fmt qs : Option String)
    (files : List ConvFile) (store0 : Store) (hne : files ≠ []) :
    runBatch codec fmt qs files store0 = runBatch codec fmt qs files [] ∧
    ∀ k, (¬ ∃ fl ∈ files, k = stem fl.originalname ++ "." ++ formatStr fmt) →
      takeOne (runBatch codec fmt qs files store0).2 k
        = (none, (runBatch codec fmt qs files store0).2) := by
  constructor
  · rw [runBatch_nonempty codec fmt qs files store0 hne,
      runBatch_nonempty codec fmt qs files [] hne]
  · intro k hk
    rw [runBatch_nonempty codec fmt qs files store0 hne]
    have hnw : ∀ p, some (k, p) ∉
        files.map fun fl => (processFile codec fmt (effectiveQuality qs) fl).2 := by
      intro p hp
      obtain ⟨fl, hfl, hfl2⟩ := List.mem_map.mp hp
      exact hk ⟨fl, hfl, processFile_write_key codec fmt (effectiveQuality qs) fl k p hfl2⟩
    have hlk : storeLookup
        (applyWrites [] (files.map fun fl => (processFile codec fmt (effectiveQuality qs) fl).2)) k
        = none := by
      rw [applyWrites_lookup_not_written _ _ _ hnw]
      rfl
    simp [takeOne, hlk]

/-- Witness for C3: after a batch producing only "b.webp", the earlier
entry "a.webp" is NotFound. -/
theorem C3_new_batch_clears_store_witness :
    runBatch okCodec (some "webp") none [⟨"b.png", 1, [5]⟩] [("a.webp", [1])]
      = runBatch okCodec (some "webp") none [⟨"b.png", 1, [5]⟩] [] ∧
    takeOne (runBatch okCodec (some "webp") none [⟨"b.png", 1, [5]⟩] [("a.webp", [1])]).2 "a.webp"
      = (none, (runBatch okCodec (some "webp") none [⟨"b.png", 1, [5]⟩] [("a.webp", [1])]).2) :=
  ⟨(C3_new_batch_clears_store okCodec (some "webp") none [⟨"b.png", 1, [5]⟩]
      [("a.webp", [1])] (by decide)).1,
   (C3_new_batch_clears_store okCodec (some "webp") none [⟨"b.png", 1, [5]⟩]
      [("a.webp", [1])] (by decide)).2 "a.webp" (by decide)⟩

/-- Claim C4: output names are derived as the stem of the original name
followed by "." and the requested format tag; two same-stem inputs of
one batch derive the same output name, the store keeps its keys unique
with last-write-wins, and takeOne of the colliding name afterwards
returns exactly the later-stored payload. -/
theorem C4_collision_last_write_wins (codec : Codec) (f : String) (qs : Option String)
    (f1 f2 : ConvFile) (p1 p2 : Payload) (store0 : Store)
    (hstem : stem f1.originalname = stem f2.originalname)
    (hm : jsToLower f ∈ supportedFormats)
    (h1 : codec f1.content (jsToLower f) (effectiveQuality qs) = Except.ok p1)
    (h2 : codec f2.content (jsToLower f) (effectiveQuality qs) = Except.ok p2) :
    (∀ (c : Codec) (fm : Option String) (q : Int) (fl : ConvFile),
      ((processFile c fm q fl).1).outputFilename
        = stem fl.originalname ++ "." ++ formatStr fm) ∧
    (runBatch codec (some f) qs [f1, f2] store0).2
      = [(stem f2.originalname ++ "." ++ f, p2)] ∧
    takeOne (runBatch codec (some f) qs [f1, f2] store0).2
        (stem f2.originalname ++ "." ++ f)
      = (some p2, []) := by
  have hrun : (runBatch codec (some f) qs [f1, f2] store0).2
      = [(stem f2.originalname ++ "." ++ f, p2)] := by
    rw [runBatch_nonempty codec (some f) qs [f1, f2] store0 (by simp)]
    simp [processFile, hm, h1, h2, applyWrites, storeInsert, hstem, formatStr]
  refine ⟨processFile_outputFilename, hrun, ?_⟩
  rw [hrun]
  simp [takeOne, storeLookup, storeErase]

/-- Witness for C4: "photo.png" and "photo.jpg" both converted to webp
collide on "photo.webp"; the later payload wins. -/
theorem C4_collision_last_write_wins_witness :
    (∀ (c : Codec) (fm : Option String) (q : Int) (fl : ConvFile),
      ((processFile c fm q fl).1).outputFilename
        = stem fl.originalname ++ "." ++ formatStr fm) ∧
    (runBatch okCodec (some "webp") none
        [⟨"photo.png", 3, [1, 2, 3]⟩, ⟨"photo.jpg", 2, [9, 9]⟩] []).2
      = [(stem "photo.jpg" ++ "." ++ "webp", [9, 9])] ∧
    takeOne (runBatch okCodec (some "webp") none
        [⟨"photo.png", 3, [1, 2, 3]⟩, ⟨"photo.jpg", 2, [9, 9]⟩] []).2
        (stem "photo.jpg" ++ "." ++ "webp")
      = (some [9, 9], []) :=
  C4_collision_last_write_wins okCodec "webp" none
    ⟨"photo.png", 3, [1, 2, 3]⟩ ⟨"photo.jpg", 2, [9, 9]⟩ [1, 2, 3] [9, 9] []
    (by decide) (by decide) rfl rfl

/-- Claim C5 as stated is false on the code: the clearing loop at
server.js lines 83-85 runs before the empty-upload check at line 88, so
a rejected zero-item batch does clear the Result Store. Concretely,
with "a.webp" held from before, the rejected empty call leaves an empty
store and takeOne("a.webp") answers NotFound. -/
theorem C5_counterexample :
    (runBatch okCodec (some "webp") none [] [("a.webp", [1])]).1
        = Except.error "No files uploaded." ∧
    storeLookup [("a.webp", [1])] "a.webp" = some [1] ∧
    (runBatch okCodec (some "webp") none [] [("a.webp", [1])]).2 = [] ∧
    takeOne (runBatch okCodec (some "webp") none [] [("a.webp", [1])]).2 "a.webp"
      = (none, []) :=
  ⟨rfl, rfl, rfl, rfl⟩

/-- Claim C5 amended: a zero-item batch is rejected with the
NoFilesProvided condition ("No files uploaded."), no conversion runs
and nothing is written, but the Result Store is cleared even by the
rejected call, because the clearing loop precedes the empty-batch
check. -/
theorem C5_empty_batch_rejected (codec : Codec) (fmt qs : Option String)
    (store0 : Store) :
    runBatch codec fmt qs [] store0 = (Except.error "No files uploaded.", []) :=
  runBatch_empty codec fmt qs store0

/-- Claim C6: when the requested format (lower-cased) is outside the
supported set, every item of the batch reports status "Unsupported
Format" with compressedSize 0, and nothing is written: the store ends
empty. -/
theorem C6_unsupported_format (codec : Codec) (f : String) (qs : Option String)
    (files : List ConvFile) (store0 : Store) (hne : files ≠ [])
    (hm : jsToLower f ∉ supportedFormats) :
    ∃ results, runBatch codec (some f) qs files store0 = (Except.ok results, []) ∧
      results.length = files.length ∧
      ∀ r ∈ results, r.status = "Unsupported Format" ∧ r.compressedSize = 0 ∧
        r.errorMessage = some ("Unsupported format: " ++ f) := by
  have hwr : ∀ w ∈ files.map
      (fun fl => (processFile codec (some f) (effectiveQuality qs) fl).2), w = none := by
    intro w hw
    obtain ⟨fl, hfl, hflw⟩ := List.mem_map.mp hw
    rw [← hflw, processFile_unsupported codec f _ fl hm]
  rw [runBatch_nonempty codec (some f) qs files store0 hne]
  refine ⟨_, by rw [applyWrites_all_none _ _ hwr], by simp, ?_⟩
  intro r hr
  obtain ⟨fl, hfl, hflr⟩ := List.mem_map.mp hr
  rw [← hflr, processFile_unsupported codec f _ fl hm]
  exact ⟨rfl, rfl, rfl⟩

/-- Witness for C6: a 3-item batch requesting format "bogus" yields 3
"Unsupported Format" reports and an empty store. -/
theorem C6_unsupported_format_witness :
    ∃ results, runBatch okCodec (some "bogus") none
        [⟨"a.png", 1, [1]⟩, ⟨"b.png", 1, [2]⟩, ⟨"c.png", 1, [3]⟩] [("old.webp", [9])]
      = (Except.ok results, []) ∧
      results.length
        = ([⟨"a.png", 1, [1]⟩, ⟨"b.png", 1, [2]⟩, ⟨"c.png", 1, [3]⟩] : List ConvFile).length ∧
      ∀ r ∈ results, r.status = "Unsupported Format" ∧ r.compressedSize = 0 ∧
        r.errorMessage = some ("Unsupported format: " ++ "bogus") :=
  C6_unsupported_format okCodec "bogus" none
    [⟨"a.png", 1, [1]⟩, ⟨"b.png", 1, [2]⟩, ⟨"c.png", 1, [3]⟩] [("old.webp", [9])]
    (by decide) (by decide)

/-- Claim C7: the per-item worker never raises — every item's report
carries one of the three statuses, and any non-Complete outcome has
compressedSize 0 and a captured message; a per-item failure never
alters sibling results, since the batch report is exactly the input
list mapped through the per-item worker; and only the empty-batch
condition is batch-fatal: the call succeeds iff the batch is
non-empty. -/
theorem C7_failures_captured_isolated (codec : Codec) (fmt qs : Option String)
    (files : List ConvFile) (store0 : Store) :
    (∀ (q : Int) (fl : ConvFile),
      (((processFile codec fmt q fl).1).status = "Complete" ∨
       ((processFile codec fmt q fl).1).status = "Unsupported Format" ∨
       ((processFile codec fmt q fl).1).status = "Error") ∧
      (((processFile codec fmt q fl).1).status ≠ "Complete" →
        ((processFile codec fmt q fl).1).compressedSize = 0 ∧
        ((processFile codec fmt q fl).1).errorMessage ≠ none)) ∧
    ((∃ results, (runBatch codec fmt qs files store0).1 = Except.ok results) ↔ files ≠ []) ∧
    (files ≠ [] →
      (runBatch codec fmt qs files store0).1
        = Except.ok (files.map fun fl => (processFile codec fmt (effectiveQuality qs) fl).1)) := by
  refine ⟨fun q fl => processFile_status_cases codec fmt q fl, ?_, ?_⟩
  · constructor
    · rintro ⟨results, hres⟩ hfe
      subst hfe
      rw [runBatch_empty] at hres
      simp at hres
    · intro hne
      exact ⟨_, by rw [runBatch_nonempty codec fmt qs files store0 hne]⟩
  · intro hne
    rw [runBatch_nonempty codec fmt qs files store0 hne]

/-- Witness for C7: a mixed batch (one convertible item, one item the
codec rejects) still returns one report per item, in order. -/
theorem C7_failures_captured_isolated_witness :
    (∃ results,
      (runBatch (fun bytes _ _ => if bytes = [0] then Except.error "corrupt" else Except.ok bytes)
        (some "webp") none [⟨"a.png", 2, [1, 2]⟩, ⟨"b.png", 1, [0]⟩] []).1
        = Except.ok results) ∧
    (runBatch (fun bytes _ _ => if bytes = [0] then Except.error "corrupt" else Except.ok bytes)
        (some "webp") none [⟨"a.png", 2, [1, 2]⟩, ⟨"b.png", 1, [0]⟩] []).1
      = Except.ok (([⟨"a.png", 2, [1, 2]⟩, ⟨"b.png", 1, [0]⟩] : List ConvFile).map
          fun fl => (processFile
            (fun bytes _ _ => if bytes = [0] then Except.error "corrupt" else Except.ok bytes)
            (some "webp") (effectiveQuality none) fl).1) :=
  ⟨((C7_failures_captured_isolated
      (fun bytes _ _ => if bytes = [0] then Except.error "corrupt" else Except.ok bytes)
      (some "webp") none [⟨"a.png", 2, [1, 2]⟩, ⟨"b.png", 1, [0]⟩] []).2.1).mpr (by decide),
   (C7_failures_captured_isolated
      (fun bytes _ _ => if bytes = [0] then Except.error "corrupt" else Except.ok bytes)
      (some "webp") none [⟨"a.png", 2, [1, 2]⟩, ⟨"b.png", 1, [0]⟩] []).2.2 (by decide)⟩

/-- Claim C8: archive retrieval is survive-by-default — it enumerates
exactly the currently-held (name, payload) entries in their stored
order, removes nothing (the store is returned unchanged, so a repeated
"download all" before the next batch yields the same entries), and an
empty store yields a valid empty archive (an empty entry list), not an
error. -/
theorem C8_archive_survives (s : Store) (hnd : (s.map Prod.fst).Nodup) :
    (downloadAllZip s).2 = s ∧
    (downloadAllZip s).1 = s ∧
    downloadAllZip ((downloadAllZip s).2) = downloadAllZip s ∧
    downloadAllZip ([] : Store) = ([], []) := by
  cases s with
  | nil => exact ⟨rfl, rfl, rfl, rfl⟩
  | cons hd t =>
    have hsnd : (downloadAllZip (hd :: t)).2 = hd :: t := by
      simp [downloadAllZip]
    have hfst : (downloadAllZip (hd :: t)).1 = hd :: t := by
      simpa [downloadAllZip] using downloadAllZip_enumerates (hd :: t) hnd
    exact ⟨hsnd, hfst, by rw [hsnd], rfl⟩

/-- Witness for C8 on a concrete two-entry store. -/
theorem C8_archive_survives_witness :
    (downloadAllZip [("a.webp", [1]), ("b.webp", [2])]).2
      = [("a.webp", [1]), ("b.webp", [2])] ∧
    (downloadAllZip [("a.webp", [1]), ("b.webp", [2])]).1
      = [("a.webp", [1]), ("b.webp", [2])] ∧
    downloadAllZip ((downloadAllZip [("a.webp", [1]), ("b.webp", [2])]).2)
      = downloadAllZip [("a.webp", [1]), ("b.webp", [2])] ∧
    downloadAllZip ([] : Store) = ([], []) :=
  C8_archive_survives [("a.webp", [1]), ("b.webp", [2])] (by decide)

/-- Claim C9 as stated is false on the code: quality "0" parses to the
integer 0, yet `parseInt(...) || 75` treats 0 as falsy, so the
effective quality is 75 and the codec is invoked with 75, not 0 — here
the quality-recording codec reports 75 bytes for an explicit quality-0
request. -/
theorem C9_counterexample :
    jsParseInt (some "0") = some 0 ∧
    effectiveQuality (some "0") = 75 ∧ (75 : Int) ≠ 0 ∧
    (runBatch spyCodec (some "png") (some "0") [⟨"a.png", 3, [1]⟩] []).1
      = Except.ok [{ name := "a.png", outputFilename := "a.png", originalSize := 3,
                     compressedSize := 75, status := "Complete", errorMessage := none }] :=
  ⟨rfl, rfl, by decide, rfl⟩

/-- Claim C9 amended: the effective quality is 75 when the quality
parameter is absent, unparseable, or parses to 0 (a falsy value);
otherwise it is exactly the parsed integer, with no clamping to
[1,100] — the codec is invoked with that value, as the
quality-recording codec observes. -/
theorem C9_quality_default (qs : String) (q : Int) :
    effectiveQuality none = 75 ∧
    (jsParseInt (some qs) = none → effectiveQuality (some qs) = 75) ∧
    (jsParseInt (some qs) = some 0 → effectiveQuality (some qs) = 75) ∧
    (jsParseInt (some qs) = some q → q ≠ 0 → effectiveQuality (some qs) = q) ∧
    (∀ (f : String) (fl : ConvFile) (store0 : Store),
      jsParseInt (some qs) = some q → q ≠ 0 → jsToLower f ∈ supportedFormats →
      ∃ results, (runBatch spyCodec (some f) (some qs) [fl] store0).1 = Except.ok results ∧
        ∀ r ∈ results, r.compressedSize = q.natAbs) := by
  refine ⟨rfl, ?_, ?_, ?_, ?_⟩
  · intro h
    simp [effectiveQuality, h]
  · intro h
    simp [effectiveQuality, h]
  · intro h hq
    simp [effectiveQuality, h, hq]
  · intro f fl store0 h hq hm
    have hques : effectiveQuality (some qs) = q := by simp [effectiveQuality, h, hq]
    rw [runBatch_nonempty spyCodec (some f) (some qs) [fl] store0 (by simp)]
    refine ⟨_, rfl, ?_⟩
    intro r hr
    simp only [List.map_cons, List.map_nil, List.mem_singleton] at hr
    subst hr
    simp [processFile, hm, spyCodec, hques]

/-- Witness for C9 amended: quality "80" is parseable and nonzero, so
the effective quality is 80 and the codec observes 80. -/
theorem C9_quality_default_witness :
    effectiveQuality (some "80") = 80 ∧
    (∃ results, (runBatch spyCodec (some "png") (some "80") [⟨"a.png", 1, [1]⟩] []).1
        = Except.ok results ∧
      ∀ r ∈ results, r.compressedSize = (80 : Int).natAbs) :=
  ⟨(C9_quality_default "80" 80).2.2.2.1 (by decide) (by decide),
   (C9_quality_default "80" 80).2.2.2.2 "png" ⟨"a.png", 1, [1]⟩ []
     (by decide) (by decide) (by decide)⟩

/-- Claim C10 (implicit): when the format parameter is omitted, the
line `format.toLowerCase()` throws inside the per-item try, so every
item's report has status "Error" (not "Unsupported Format") with a
non-empty captured message and compressedSize 0, nothing is written to
the store, and the batch still returns one report per item. -/
theorem C10_missing_format_param (codec : Codec) (qs : Option String)
    (files : List ConvFile) (store0 : Store) (hne : files ≠ []) :
    ∃ results, runBatch codec none qs files store0 = (Except.ok results, []) ∧
      results.length = files.length ∧
      ∀ r ∈ results, r.status = "Error" ∧ r.status ≠ "Unsupported Format" ∧
        r.compressedSize = 0 ∧ ∃ m, r.errorMessage = some m ∧ m ≠ "" := by
  have hwr : ∀ w ∈ files.map
      (fun fl => (processFile codec none (effectiveQuality qs) fl).2), w = none := by
    intro w hw
    obtain ⟨fl, hfl, hflw⟩ := List.mem_map.mp hw
    rw [← hflw]
    rfl
  rw [runBatch_nonempty codec none qs files store0 hne]
  refine ⟨_, by rw [applyWrites_all_none _ _ hwr], by simp, ?_⟩
  intro r hr
  obtain ⟨fl, hfl, hflr⟩ := List.mem_map.mp hr
  rw [← hflr]
  refine ⟨rfl, ?_, rfl,
    "Cannot read properties of undefined (reading 'toLowerCase')", rfl, ?_⟩
  · show ("Error" : String) ≠ "Unsupported Format"
    decide
  · decide

/-- Witness for C10: a two-item batch with no format parameter. -/
theorem C10_missing_format_param_witness :
    ∃ results, runBatch okCodec none (some "80")
        [⟨"a.png", 1, [1]⟩, ⟨"b.png", 2, [2]⟩] [("old.webp", [9])]
      = (Except.ok results, []) ∧
      results.length = ([⟨"a.png", 1, [1]⟩, ⟨"b.png", 2, [2]⟩] : List ConvFile).length ∧
      ∀ r ∈ results, r.status = "Error" ∧ r.status ≠ "Unsupported Format" ∧
        r.compressedSize = 0 ∧ ∃ m, r.errorMessage = some m ∧ m ≠ "" :=
  C10_missing_format_param okCodec (some "80")
    [⟨"a.png", 1, [1]⟩, ⟨"b.png", 2, [2]⟩] [("old.webp", [9])] (by decide)
